import Mathlib

/-!
Verification of the Abseil flag registry (`absl/flags/internal/registry.cc`):
a shallow embedding of the registry map, the registration conflict policy,
retirement, lookup, and the flag-saver (snapshot/restore) mechanism, with
theorems checking the specified properties.
-/

set_option maxHeartbeats 1000000
set_option linter.unnecessarySeqFocus false

namespace AbslFlags

/-- A diagnostic emitted through `ReportUsageError`: (message, is_fatal). -/
abbrev Diag := String × Bool

/-- A saved flag state capsule. Modelled from the spec: `FlagStateInterface`
is declared outside this file; the spec describes it as a self-contained copy
of one descriptor's current value plus enough identity to restore it later
into the same descriptor instance. -/
structure FlagStateCapsule where
  flagName : String
  savedValue : Nat
deriving DecidableEq

/-- A flag descriptor (`CommandLineFlag`). The value representation is
opaque to the registry; we use `Option Nat` for the current value (`cur_`),
`Nat` for the type identity token (`op_`), matching the identity the
registry consumes: name, defining file, type token, retired bit. -/
structure CommandLineFlag where
  name : String
  filename : String
  opToken : Nat
  retired : Bool
  cur : Option Nat
deriving DecidableEq

/-- Modelled from the spec: `CommandLineFlag::Typename` lives outside this
file; the registry only interpolates it into diagnostics, so any function of
the type token serves. -/
def typenameOf (op : Nat) : String := toString op

/-- Embedding of `SaveState`. The retired override (registry.cc,
`RetiredFlagObj::SaveState`) returns null. Modelled from the spec for live
flags (their `SaveState` lives outside this file): a live descriptor returns
a capsule of its current value (or none when it has no value to save). -/
def CommandLineFlag.SaveState (f : CommandLineFlag) : Option FlagStateCapsule :=
  if f.retired then none
  else f.cur.map (fun v => { flagName := f.name, savedValue := v })

/-- The registry map `flags_ : name -> flag` as an association list with at
most one entry per name (enforced by insertion). -/
abbrev FlagMap := List (String × CommandLineFlag)

/-- Embedding of `flags_.find(name)`: the entry for `name`, if present. -/
def FlagMap.lookup : FlagMap → String → Option CommandLineFlag
  | [], _ => none
  | (k, g) :: rest, n => if n = k then some g else FlagMap.lookup rest n

/-- Embedding of `flags_.insert(value_type(name, flag))`: inserts only when
the key is absent; returns the (possibly unchanged) map and whether insertion
happened, mirroring the `std::pair<iterator, bool>` result. -/
def FlagMap.insertFlag : FlagMap → String → CommandLineFlag → FlagMap × Bool
  | [], n, f => ([(n, f)], true)
  | (k, g) :: rest, n, f =>
    if n = k then ((k, g) :: rest, false)
    else
      let r := FlagMap.insertFlag rest n f
      ((k, g) :: r.1, r.2)

/-- Diagnostic text of the retired/live mismatch branch (registry.cc:114). -/
def retiredMismatchMsg (flag old : CommandLineFlag) : String :=
  "Retired flag '" ++ flag.name ++ "' was defined normally in file '" ++
    (if flag.retired then old.filename else flag.filename) ++ "'."

/-- Diagnostic text of the differing-types branch (registry.cc:122). -/
def typeMismatchMsg (flag old : CommandLineFlag) : String :=
  "Flag '" ++ flag.name ++
    "' was defined more than once but with differing types. Defined in files '" ++
    old.filename ++ "' and '" ++ flag.filename ++ "' with types '" ++
    typenameOf old.opToken ++ "' and '" ++ typenameOf flag.opToken ++
    "', respectively."

/-- Diagnostic text of the differing-locations branch (registry.cc:135). -/
def locationMismatchMsg (flag old : CommandLineFlag) : String :=
  "Flag '" ++ flag.name ++ "' was defined more than once (in files '" ++
    old.filename ++ "' and '" ++ flag.filename ++ "')."

/-- Diagnostic text of the identical-redefinition branch (registry.cc:142). -/
def identicalRedefMsg (flag : CommandLineFlag) : String :=
  "Something wrong with flag '" ++ flag.name ++ "' in file '" ++ flag.filename ++
    "'. One possibility: file '" ++ flag.filename ++
    "' is being linked both statically and dynamically into this " ++
    "executable. e.g. some files listed as srcs to a test and also " ++
    "listed as srcs of some shared lib deps of the same test."

/-- Outcome of `FlagRegistry::RegisterFlag`: either the call returns (with
the resulting map and the descriptors it destroyed), or the process exits
via `std::exit(1)` after emitting diagnostics (the map at exit time is
recorded, together with the diagnostics emitted). -/
inductive RegisterResult where
  | ok (m : FlagMap) (destroyed : List CommandLineFlag)
  | exited (m : FlagMap) (diags : List Diag)
deriving DecidableEq

/-- The registry map in which a registration left the process. -/
def RegisterResult.resultMap : RegisterResult → FlagMap
  | .ok m _ => m
  | .exited m _ => m

/-- Embedding of `FlagRegistry::RegisterFlag` (registry.cc:106-154). -/
def registerFlag (m : FlagMap) (flag : CommandLineFlag) : RegisterResult :=
  let ins := FlagMap.insertFlag m flag.name flag
  if ins.2 then .ok ins.1 []
  else
    match FlagMap.lookup m flag.name with
    | none => .ok ins.1 []
    | some old =>
      if flag.retired ≠ old.retired then
        .exited ins.1 [(retiredMismatchMsg flag old, true)]
      else if flag.opToken ≠ old.opToken then
        .exited ins.1 [(typeMismatchMsg flag old, true)]
      else if old.retired then
        .ok ins.1 [flag]
      else if old.filename ≠ flag.filename then
        .exited ins.1 [(locationMismatchMsg flag old, true)]
      else
        .exited ins.1 [(identicalRedefMsg flag, true)]

/-- Outcome of a boolean-returning call that may instead exit the process. -/
inductive CallResult where
  | ret (value : Bool) (m : FlagMap) (destroyed : List CommandLineFlag)
  | exited (m : FlagMap) (diags : List Diag)
deriving DecidableEq

/-- Embedding of `RegisterCommandLineFlag` (registry.cc:267-270): registers
and returns `true` (when `RegisterFlag` returns at all). -/
def registerCommandLineFlag (m : FlagMap) (flag : CommandLineFlag) : CallResult :=
  match registerFlag m flag with
  | .ok m' d => .ret true m' d
  | .exited m' ds => .exited m' ds

/-- Embedding of `FlagRegistry::FindFlagLocked` (registry.cc:156-168): the
entry for the name, plus the diagnostics it emits (a non-fatal warning when
the entry is retired). -/
def findFlagLocked (m : FlagMap) (name : String) :
    Option CommandLineFlag × List Diag :=
  match FlagMap.lookup m name with
  | none => (none, [])
  | some f =>
    if f.retired then
      (some f, [("Accessing retired flag '" ++ name ++ "'", false)])
    else
      (some f, [])

/-- Embedding of `FlagRegistry::FindRetiredFlagLocked` (registry.cc:170-177):
the entry for the name when it exists and is retired; emits no diagnostics. -/
def findRetiredFlagLocked (m : FlagMap) (name : String) :
    Option CommandLineFlag × List Diag :=
  match FlagMap.lookup m name with
  | none => (none, [])
  | some f => if f.retired then (some f, []) else (none, [])

/-- Observable behaviour of a top-level lookup: whether the registry lock
was acquired, the result, and the diagnostics emitted. -/
structure LookupTrace where
  lockAcquired : Bool
  result : Option CommandLineFlag
  diags : List Diag
deriving DecidableEq

/-- Embedding of `FindCommandLineFlag` (registry.cc:234-240): returns null
for an empty name before taking the lock; otherwise locks and delegates. -/
def findCommandLineFlag (m : FlagMap) (name : String) : LookupTrace :=
  if name.isEmpty then { lockAcquired := false, result := none, diags := [] }
  else
    let r := findFlagLocked m name
    { lockAcquired := true, result := r.1, diags := r.2 }

/-- Embedding of `FindRetiredFlag` (registry.cc:242-247): locks and
delegates, with no empty-name check. -/
def findRetiredFlag (m : FlagMap) (name : String) : LookupTrace :=
  let r := findRetiredFlagLocked m name
  { lockAcquired := true, result := r.1, diags := r.2 }

/-- The `RetiredFlagObj` tombstone (registry.cc:276-303): retired, a
synthetic defining location `"RETIRED"`, null value fields. -/
def retiredFlagObj (name : String) (ops : Nat) : CommandLineFlag :=
  { name := name, filename := "RETIRED", opToken := ops, retired := true,
    cur := none }

/-- Embedding of `Retire` (registry.cc:307-312): registers a fresh tombstone
and returns `true` (when `RegisterFlag` returns at all). -/
def retire (m : FlagMap) (name : String) (ops : Nat) : CallResult :=
  match registerFlag m (retiredFlagObj name ops) with
  | .ok m' d => .ret true m' d
  | .exited m' ds => .exited m' ds

/-- Modelled from the spec: `CommandLineFlag::IsOfType<bool>` lives outside
this file; it holds exactly when the flag's type token is the token of
`bool`, which we fix as token `0`. -/
def boolOpToken : Nat := 0

/-- Embedding of `IsRetiredFlag` (registry.cc:316-325). The outer `Option` models the
`assert(!name.empty())` precondition: `none` means the assertion fires.
Otherwise the result mirrors the `bool` return plus the `type_is_bool`
out-parameter as `some (some b)` for a retired flag and `some none` when
the name is not registered as retired; the second component records the
diagnostics emitted by the underlying lookup. -/
def isRetiredFlag (m : FlagMap) (name : String) :
    Option (Option Bool) × List Diag :=
  if name.isEmpty then (none, [])
  else
    let r := findRetiredFlag m name
    match r.result with
    | none => (some none, r.diags)
    | some f => (some (some (f.opToken == boolOpToken)), r.diags)

/-- The capture pass of `FlagSaverImpl::SaveFromRegistry`: `ForEachFlag`
over the registry, keeping each non-null `SaveState` capsule in order. -/
def captureAll (m : FlagMap) : List FlagStateCapsule :=
  m.filterMap (fun p => p.2.SaveState)

/-- Embedding of `FlagStateInterface::Restore`. Modelled from the spec (the
interface lives outside this file): a capsule writes its saved value back
into the same descriptor instance (identified here by name, since the
registry never replaces a descriptor). -/
def restoreCapsule (c : FlagStateCapsule) (m : FlagMap) : FlagMap :=
  m.map (fun p =>
    if p.1 = c.flagName then (p.1, { p.2 with cur := some c.savedValue }) else p)

/-- Embedding of `FlagSaverImpl` (registry.cc:189-216): holds the backup
registry. -/
structure FlagSaverImpl where
  backup : List FlagStateCapsule
deriving DecidableEq

/-- Embedding of `FlagSaverImpl::SaveFromRegistry` (registry.cc:197-204):
asserts that the backup is empty (`none` models the assertion firing), then
captures every non-null flag state. -/
def FlagSaverImpl.saveFromRegistry (impl : FlagSaverImpl) (m : FlagMap) :
    Option FlagSaverImpl :=
  if impl.backup.isEmpty then some { backup := captureAll m }
  else none

/-- Embedding of `FlagSaverImpl::RestoreToRegistry` (registry.cc:207-211):
restores each saved capsule. -/
def FlagSaverImpl.restoreToRegistry (impl : FlagSaverImpl) (m : FlagMap) :
    FlagMap :=
  impl.backup.foldl (fun acc c => restoreCapsule c acc) m

/-- Embedding of `FlagSaver` (registry.cc:218-230): an optional impl
pointer; `Ignore` nulls it out. -/
structure FlagSaver where
  impl : Option FlagSaverImpl
deriving DecidableEq

/-- Embedding of the `FlagSaver` constructor (registry.cc:218): constructs
the impl and captures immediately. -/
def FlagSaver.construct (m : FlagMap) : FlagSaver :=
  { impl := some { backup := captureAll m } }

/-- Embedding of `FlagSaver::Ignore` (registry.cc:220-223): discards the
impl. -/
def FlagSaver.ignore (_fs : FlagSaver) : FlagSaver :=
  { impl := none }

/-- Embedding of the `FlagSaver` destructor (registry.cc:225-230): restores
through the impl when it is still present, else leaves the registry
untouched. -/
def FlagSaver.destruct (fs : FlagSaver) (m : FlagMap) : FlagMap :=
  match fs.impl with
  | none => m
  | some impl => impl.restoreToRegistry m

/-- Conflict outcomes distinguished by the spec's registration policy. -/
inductive ConflictOutcome where
  | fatalRetiredMismatch
  | fatalTypeMismatch
  | keepOldDestroyNew
  | fatalLocationMismatch
  | fatalIdenticalRedefinition
deriving DecidableEq

/-- The spec's conflict policy, transcribed from its own words (section 4.2,
cases 1-5), for comparison with the code's `registerFlag`. -/
def specConflictPolicy (fnew old : CommandLineFlag) : ConflictOutcome :=
  if fnew.retired ≠ old.retired then .fatalRetiredMismatch
  else if fnew.opToken ≠ old.opToken then .fatalTypeMismatch
  else if old.retired then .keepOldDestroyNew
  else if old.filename ≠ fnew.filename then .fatalLocationMismatch
  else .fatalIdenticalRedefinition

/-- Number of entries of the registry map stored under a given name. -/
def countKey (m : FlagMap) (n : String) : Nat :=
  (m.filter (fun p => p.1 == n)).length

/-- Each map entry is keyed by its descriptor's own name — true of every
map the registration path builds, since `RegisterFlag` inserts under
`flag->Name()`. -/
abbrev KeysCoherent (m : FlagMap) : Prop :=
  ∀ p ∈ m, p.1 = p.2.name

/-- The registry invariant: at most one entry per name. -/
abbrev KeysNodup (m : FlagMap) : Prop :=
  (m.map Prod.fst).Nodup

/-- A sample live boolean flag, defined in `a.cc`. -/
def flagA : CommandLineFlag :=
  { name := "verbose", filename := "a.cc", opToken := 0, retired := false,
    cur := some 1 }

/-- A second live boolean flag with the same name, defined in `b.cc`. -/
def flagB : CommandLineFlag :=
  { name := "verbose", filename := "b.cc", opToken := 0, retired := false,
    cur := some 2 }

/-! ## Lemmas about the map operations -/

theorem lookup_cons (k : String) (g : CommandLineFlag) (rest : FlagMap)
    (n : String) :
    FlagMap.lookup ((k, g) :: rest) n =
      if n = k then some g else FlagMap.lookup rest n := rfl

theorem insertFlag_of_lookup_some {m : FlagMap} {n : String}
    (f : CommandLineFlag) {old : CommandLineFlag}
    (h : FlagMap.lookup m n = some old) :
    FlagMap.insertFlag m n f = (m, false) := by
  induction m with
  | nil => simp [FlagMap.lookup] at h
  | cons p rest ih =>
    obtain ⟨k, g⟩ := p
    by_cases hk : n = k
    · simp [FlagMap.insertFlag, hk]
    · rw [lookup_cons, if_neg hk] at h
      simp [FlagMap.insertFlag, hk, ih h]

theorem insertFlag_of_lookup_none {m : FlagMap} {n : String}
    (f : CommandLineFlag) (h : FlagMap.lookup m n = none) :
    FlagMap.insertFlag m n f = (m ++ [(n, f)], true) := by
  induction m with
  | nil => simp [FlagMap.insertFlag]
  | cons p rest ih =>
    obtain ⟨k, g⟩ := p
    by_cases hk : n = k
    · rw [lookup_cons, if_pos hk] at h
      exact absurd h (by simp)
    · rw [lookup_cons, if_neg hk] at h
      simp [FlagMap.insertFlag, hk, ih h]

theorem lookup_append_self {m : FlagMap} {n : String} (f : CommandLineFlag)
    (h : FlagMap.lookup m n = none) :
    FlagMap.lookup (m ++ [(n, f)]) n = some f := by
  induction m with
  | nil => simp [FlagMap.lookup]
  | cons p rest ih =>
    obtain ⟨k, g⟩ := p
    by_cases hk : n = k
    · rw [lookup_cons, if_pos hk] at h
      exact absurd h (by simp)
    · rw [lookup_cons, if_neg hk] at h
      rw [List.cons_append, lookup_cons, if_neg hk]
      exact ih h

theorem countKey_eq_zero {m : FlagMap} {n : String}
    (h : FlagMap.lookup m n = none) : countKey m n = 0 := by
  induction m with
  | nil => rfl
  | cons p rest ih =>
    obtain ⟨k, g⟩ := p
    by_cases hk : n = k
    · rw [lookup_cons, if_pos hk] at h
      exact absurd h (by simp)
    · rw [lookup_cons, if_neg hk] at h
      have : (k == n) = false := by
        simp [beq_iff_eq]
        exact fun hkn => hk hkn.symm
      simp [countKey, List.filter, this] at ih ⊢
      exact ih h

theorem countKey_append (m₁ m₂ : FlagMap) (n : String) :
    countKey (m₁ ++ m₂) n = countKey m₁ n + countKey m₂ n := by
  simp [countKey, List.filter_append]

/-! ## Lemmas about the registration engine -/

theorem registerFlag_new {m : FlagMap} (flag : CommandLineFlag)
    (h : FlagMap.lookup m flag.name = none) :
    registerFlag m flag = .ok (m ++ [(flag.name, flag)]) [] := by
  simp [registerFlag, insertFlag_of_lookup_none flag h]

theorem registerFlag_collision (m : FlagMap) (flag old : CommandLineFlag)
    (h : FlagMap.lookup m flag.name = some old) :
    registerFlag m flag =
      match specConflictPolicy flag old with
      | .fatalRetiredMismatch => .exited m [(retiredMismatchMsg flag old, true)]
      | .fatalTypeMismatch => .exited m [(typeMismatchMsg flag old, true)]
      | .keepOldDestroyNew => .ok m [flag]
      | .fatalLocationMismatch => .exited m [(locationMismatchMsg flag old, true)]
      | .fatalIdenticalRedefinition => .exited m [(identicalRedefMsg flag, true)]
    := by
  simp only [registerFlag, specConflictPolicy, insertFlag_of_lookup_some flag h, h]
  split_ifs <;> simp_all

/-! ## Claim theorems -/

/-- C1: on every registration whose name already has a resident entry, the
conflict checks run in exactly the spec's order — retired-bit mismatch is
fatal; else type-token mismatch is fatal; else a retired resident makes the
registration an idempotent success that destroys the incoming descriptor and
keeps the resident; else a defining-location mismatch is fatal; else the
identical redefinition is fatal — i.e. the code's registration engine
realises `specConflictPolicy` case by case. -/
theorem c1_conflict_order (m : FlagMap) (flag old : CommandLineFlag)
    (h : FlagMap.lookup m flag.name = some old) :
    registerFlag m flag =
      match specConflictPolicy flag old with
      | .fatalRetiredMismatch => .exited m [(retiredMismatchMsg flag old, true)]
      | .fatalTypeMismatch => .exited m [(typeMismatchMsg flag old, true)]
      | .keepOldDestroyNew => .ok m [flag]
      | .fatalLocationMismatch => .exited m [(locationMismatchMsg flag old, true)]
      | .fatalIdenticalRedefinition => .exited m [(identicalRedefMsg flag, true)]
    :=
  registerFlag_collision m flag old h

/-- Witness for C1 at a concrete collision: registering `verbose` from
`b.cc` over the resident `verbose` from `a.cc`. -/
theorem c1_conflict_order_witness :
    registerFlag [("verbose", flagA)] flagB =
      match specConflictPolicy flagB flagA with
      | .fatalRetiredMismatch =>
          .exited [("verbose", flagA)] [(retiredMismatchMsg flagB flagA, true)]
      | .fatalTypeMismatch =>
          .exited [("verbose", flagA)] [(typeMismatchMsg flagB flagA, true)]
      | .keepOldDestroyNew => .ok [("verbose", flagA)] [flagB]
      | .fatalLocationMismatch =>
          .exited [("verbose", flagA)] [(locationMismatchMsg flagB flagA, true)]
      | .fatalIdenticalRedefinition =>
          .exited [("verbose", flagA)] [(identicalRedefMsg flagB, true)]
    :=
  c1_conflict_order [("verbose", flagA)] flagB flagA (by decide)

/-- C2: every registration either returns `true` — and then the name was
new, or the incoming and resident descriptors are both retired with a
matching type token — or emits a fatal diagnostic through the usage-error
sink and terminates the process; it never returns `false`. -/
theorem c2_register_never_false (m : FlagMap) (flag : CommandLineFlag) :
    (∃ m' d, registerCommandLineFlag m flag = .ret true m' d
        ∧ (FlagMap.lookup m flag.name = none
            ∨ ∃ old, FlagMap.lookup m flag.name = some old
                ∧ old.retired = true ∧ flag.retired = true
                ∧ flag.opToken = old.opToken))
    ∨ (∃ msg, registerCommandLineFlag m flag = .exited m [(msg, true)]) := by
  rcases hl : FlagMap.lookup m flag.name with _ | old
  · refine Or.inl ⟨m ++ [(flag.name, flag)], [], ?_, Or.inl rfl⟩
    simp [registerCommandLineFlag, registerFlag_new flag hl]
  · have hc := registerFlag_collision m flag old hl
    unfold specConflictPolicy at hc
    split_ifs at hc with h1 h2 h3 h4
    · exact Or.inr ⟨retiredMismatchMsg flag old,
        by simp [registerCommandLineFlag, hc]⟩
    · exact Or.inr ⟨typeMismatchMsg flag old,
        by simp [registerCommandLineFlag, hc]⟩
    · rw [not_ne_iff] at h1 h2
      exact Or.inl ⟨m, [flag], by simp [registerCommandLineFlag, hc],
        Or.inr ⟨old, rfl, h3, h1.trans h3, h2⟩⟩
    · exact Or.inr ⟨locationMismatchMsg flag old,
        by simp [registerCommandLineFlag, hc]⟩
    · exact Or.inr ⟨identicalRedefMsg flag,
        by simp [registerCommandLineFlag, hc]⟩

/-- C10: a registration whose name collides with a resident entry leaves the
name-to-descriptor binding untouched: the registry map is unchanged both on
the idempotent-retired success and at every fatal exit, the name stays bound
to the resident descriptor, and the only descriptor ever destroyed is the
incoming duplicate. -/
theorem c10_collision_preserves_binding (m : FlagMap)
    (flag old : CommandLineFlag)
    (h : FlagMap.lookup m flag.name = some old) :
    (registerFlag m flag).resultMap = m
    ∧ FlagMap.lookup (registerFlag m flag).resultMap flag.name = some old
    ∧ ∀ m' d, registerFlag m flag = .ok m' d → d = [flag] := by
  have hc := registerFlag_collision m flag old h
  refine ⟨?_, ?_, ?_⟩
  · cases hs : specConflictPolicy flag old <;> rw [hs] at hc <;>
      simp [hc, RegisterResult.resultMap]
  · cases hs : specConflictPolicy flag old <;> rw [hs] at hc <;>
      simp [hc, RegisterResult.resultMap, h]
  · intro m' d hd
    cases hs : specConflictPolicy flag old <;> rw [hs] at hc <;>
      rw [hc] at hd <;> cases hd <;> rfl

/-- Witness for C10: the resident `verbose` from `a.cc` survives a colliding
registration from `b.cc` unchanged. -/
theorem c10_collision_preserves_binding_witness :
    (registerFlag [("verbose", flagA)] flagB).resultMap = [("verbose", flagA)]
    ∧ FlagMap.lookup (registerFlag [("verbose", flagA)] flagB).resultMap
        flagB.name = some flagA
    ∧ ∀ m' d, registerFlag [("verbose", flagA)] flagB = .ok m' d →
        d = [flagB] :=
  c10_collision_preserves_binding [("verbose", flagA)] flagB flagA (by decide)

/-- C4: retiring a name twice with a matching type token succeeds both
times; the registry afterwards holds exactly one entry for that name — the
tombstone installed by the first retirement — and the descriptor destroyed
by the second call is the second, duplicate tombstone. -/
theorem c4_retire_idempotent (m₀ : FlagMap) (name : String) (ops : Nat)
    (h : FlagMap.lookup m₀ name = none) :
    retire m₀ name ops =
      .ret true (m₀ ++ [(name, retiredFlagObj name ops)]) []
    ∧ retire (m₀ ++ [(name, retiredFlagObj name ops)]) name ops =
      .ret true (m₀ ++ [(name, retiredFlagObj name ops)])
        [retiredFlagObj name ops]
    ∧ FlagMap.lookup (m₀ ++ [(name, retiredFlagObj name ops)]) name =
      some (retiredFlagObj name ops)
    ∧ countKey (m₀ ++ [(name, retiredFlagObj name ops)]) name = 1 := by
  have hname : (retiredFlagObj name ops).name = name := rfl
  have h1 : registerFlag m₀ (retiredFlagObj name ops) =
      .ok (m₀ ++ [(name, retiredFlagObj name ops)]) [] := by
    have hnew := registerFlag_new (m := m₀) (retiredFlagObj name ops)
      (by rw [hname]; exact h)
    rw [hname] at hnew
    exact hnew
  have hl2 : FlagMap.lookup (m₀ ++ [(name, retiredFlagObj name ops)]) name =
      some (retiredFlagObj name ops) := lookup_append_self _ h
  have h2 : registerFlag (m₀ ++ [(name, retiredFlagObj name ops)])
      (retiredFlagObj name ops) =
      .ok (m₀ ++ [(name, retiredFlagObj name ops)]) [retiredFlagObj name ops]
      := by
    have hc := registerFlag_collision (m₀ ++ [(name, retiredFlagObj name ops)])
      (retiredFlagObj name ops) (retiredFlagObj name ops)
      (by rw [hname]; exact hl2)
    rw [show specConflictPolicy (retiredFlagObj name ops)
        (retiredFlagObj name ops) = .keepOldDestroyNew from by
      simp [specConflictPolicy, retiredFlagObj]] at hc
    exact hc
  refine ⟨by simp [retire, h1], by simp [retire, h2], hl2, ?_⟩
  rw [countKey_append, countKey_eq_zero h]
  simp [countKey]

/-- Witness for C4: retiring `old_flag` twice in an initially empty
registry. -/
theorem c4_retire_idempotent_witness :
    retire [] "old_flag" 0 =
      .ret true [("old_flag", retiredFlagObj "old_flag" 0)] []
    ∧ retire [("old_flag", retiredFlagObj "old_flag" 0)] "old_flag" 0 =
      .ret true [("old_flag", retiredFlagObj "old_flag" 0)]
        [retiredFlagObj "old_flag" 0]
    ∧ FlagMap.lookup [("old_flag", retiredFlagObj "old_flag" 0)] "old_flag" =
      some (retiredFlagObj "old_flag" 0)
    ∧ countKey [("old_flag", retiredFlagObj "old_flag" 0)] "old_flag" = 1 := by
  have h := c4_retire_idempotent [] "old_flag" 0 rfl
  simpa using h

/-- C5: looking up a registered retired name through `FindFlagLocked`
returns the descriptor together with exactly one non-fatal usage warning,
while `FindRetiredFlagLocked` returns the same descriptor with zero
warnings; and on a registered non-retired name `FindRetiredFlagLocked`
returns none. -/
theorem c5_lookup_warning (m : FlagMap) (name : String) (f : CommandLineFlag)
    (hf : FlagMap.lookup m name = some f) :
    (f.retired = true →
      findFlagLocked m name =
        (some f, [("Accessing retired flag '" ++ name ++ "'", false)])
      ∧ findRetiredFlagLocked m name = (some f, []))
    ∧ (f.retired = false → findRetiredFlagLocked m name = (none, [])) := by
  constructor
  · intro hr
    constructor <;> simp [findFlagLocked, findRetiredFlagLocked, hf, hr]
  · intro hr
    simp [findRetiredFlagLocked, hf, hr]

/-- Witness for C5 at the retired name `x`. -/
theorem c5_lookup_warning_witness :
    ((retiredFlagObj "x" 0).retired = true →
      findFlagLocked [("x", retiredFlagObj "x" 0)] "x" =
        (some (retiredFlagObj "x" 0),
          [("Accessing retired flag '" ++ "x" ++ "'", false)])
      ∧ findRetiredFlagLocked [("x", retiredFlagObj "x" 0)] "x" =
        (some (retiredFlagObj "x" 0), []))
    ∧ ((retiredFlagObj "x" 0).retired = false →
      findRetiredFlagLocked [("x", retiredFlagObj "x" 0)] "x" = (none, [])) :=
  c5_lookup_warning [("x", retiredFlagObj "x" 0)] "x" (retiredFlagObj "x" 0)
    (by decide)

/-- C6 counterexample: `FindRetiredFlag` performs no empty-name fast path —
on the empty name it still acquires the registry lock, contrary to the
claim that it returns none without touching the lock. -/
theorem c6_counterexample : (findRetiredFlag [] "").lockAcquired = true := rfl

/-- C6 amended: `FindCommandLineFlag` returns none for the empty name
without acquiring the lock; `FindRetiredFlag` has no empty-name check — it
acquires the lock even for the empty name and returns none for it only
because the lookup finds no entry under the empty name. -/
theorem c6_empty_name_amended (m : FlagMap) :
    findCommandLineFlag m "" =
      { lockAcquired := false, result := none, diags := [] }
    ∧ (findRetiredFlag m "").lockAcquired = true
    ∧ (FlagMap.lookup m "" = none →
        findRetiredFlag m "" =
          { lockAcquired := true, result := none, diags := [] }) := by
  refine ⟨rfl, rfl, ?_⟩
  intro h
  simp [findRetiredFlag, findRetiredFlagLocked, h]

/-- Witness for C6 (amended) on the empty registry. -/
theorem c6_empty_name_amended_witness :
    findRetiredFlag [] "" =
      { lockAcquired := true, result := none, diags := [] } :=
  (c6_empty_name_amended []).2.2 rfl

/-- C7 counterexample: `IsRetiredFlag` asserts `!name.empty()`, so the empty
name is a contract violation (modelled by the outer `none`), contradicting
the claim that no input leads to an error or contract violation. -/
theorem c7_counterexample : isRetiredFlag [] "" = (none, []) := rfl

/-- C7 amended: for every non-empty name, `IsRetiredFlag` never warns and
never violates its contract; it reports none (`some none`) when the name is
not registered as retired, and the boolean-typedness of the retired flag
otherwise. -/
theorem c7_is_retired_amended (m : FlagMap) (name : String)
    (h : name.isEmpty = false) :
    (isRetiredFlag m name).2 = []
    ∧ (isRetiredFlag m name).1.isSome = true
    ∧ isRetiredFlag m name =
        (some (match FlagMap.lookup m name with
               | none => none
               | some f =>
                   if f.retired then some (f.opToken == boolOpToken)
                   else none), []) := by
  rcases hl : FlagMap.lookup m name with _ | f
  · simp [isRetiredFlag, h, findRetiredFlag, findRetiredFlagLocked, hl]
  · by_cases hr : f.retired = true
    · simp [isRetiredFlag, h, findRetiredFlag, findRetiredFlagLocked, hl, hr]
    · simp [isRetiredFlag, h, findRetiredFlag, findRetiredFlagLocked, hl, hr]

/-- Witness for C7 (amended) at the retired name `x`. -/
theorem c7_is_retired_amended_witness :
    (isRetiredFlag [("x", retiredFlagObj "x" 0)] "x").2 = []
    ∧ (isRetiredFlag [("x", retiredFlagObj "x" 0)] "x").1.isSome = true
    ∧ isRetiredFlag [("x", retiredFlagObj "x" 0)] "x" =
        (some (match FlagMap.lookup [("x", retiredFlagObj "x" 0)] "x" with
               | none => none
               | some f =>
                   if f.retired then some (f.opToken == boolOpToken)
                   else none), []) :=
  c7_is_retired_amended [("x", retiredFlagObj "x" 0)] "x" (by decide)

/-- C8 counterexample: capturing twice on the same saver object does not
always violate the assertion — over an empty registry the first capture
stores no capsule, so the backup stays empty and the second capture
succeeds (no `none`). -/
theorem c8_counterexample :
    (FlagSaverImpl.saveFromRegistry { backup := [] } []).bind
      (fun impl => FlagSaverImpl.saveFromRegistry impl []) =
      some { backup := [] } := rfl

/-- C8 amended: a fresh capture (empty backup) never fires the assertion in
`SaveFromRegistry`; a second capture on the resulting object fires the
assertion exactly when the first capture stored at least one capsule. -/
theorem c8_capture_assert_amended (m₁ m₂ : FlagMap) :
    FlagSaverImpl.saveFromRegistry { backup := [] } m₁ =
      some { backup := captureAll m₁ }
    ∧ FlagSaverImpl.saveFromRegistry { backup := captureAll m₁ } m₂ =
        (if captureAll m₁ = [] then some { backup := captureAll m₂ }
         else none) := by
  refine ⟨rfl, ?_⟩
  by_cases hc : captureAll m₁ = []
  · simp [FlagSaverImpl.saveFromRegistry, hc]
  · simp [FlagSaverImpl.saveFromRegistry, hc]

/-! ## Lemmas about capture and restore -/

theorem SaveState_eq_some {f : CommandLineFlag} {cap : FlagStateCapsule}
    (h : f.SaveState = some cap) :
    f.retired = false ∧ cap.flagName = f.name ∧ f.cur = some cap.savedValue
    := by
  unfold CommandLineFlag.SaveState at h
  by_cases hr : f.retired = true
  · rw [if_pos hr] at h
    cases h
  · rw [if_neg hr] at h
    rcases hc : f.cur with _ | v
    · rw [hc] at h
      cases h
    · rw [hc, Option.map_some'] at h
      injection h with h2
      subst h2
      exact ⟨by revert hr; cases f.retired <;> simp, rfl, rfl⟩

theorem lookup_some_mem {m : FlagMap} {n : String} {f : CommandLineFlag}
    (h : FlagMap.lookup m n = some f) : (n, f) ∈ m := by
  induction m with
  | nil => cases h
  | cons p rest ih =>
    obtain ⟨k, g⟩ := p
    by_cases hk : n = k
    · rw [lookup_cons, if_pos hk] at h
      injection h with h2
      subst hk
      subst h2
      exact List.mem_cons_self _ _
    · rw [lookup_cons, if_neg hk] at h
      exact List.mem_cons_of_mem _ (ih h)

theorem mem_captureAll {m : FlagMap} {p : String × CommandLineFlag}
    {cap : FlagStateCapsule} (hp : p ∈ m) (h : p.2.SaveState = some cap) :
    cap ∈ captureAll m :=
  List.mem_filterMap.mpr ⟨p, hp, h⟩

theorem captureAll_names_sublist (m : FlagMap) (hco : KeysCoherent m) :
    List.Sublist ((captureAll m).map (fun c => c.flagName))
      (m.map Prod.fst) := by
  induction m with
  | nil => simp [captureAll]
  | cons p rest ih =>
    have hco' : KeysCoherent rest :=
      fun q hq => hco q (List.mem_cons_of_mem _ hq)
    rcases hs : p.2.SaveState with _ | c
    · rw [show captureAll (p :: rest) = captureAll rest from by
        simp [captureAll, List.filterMap_cons, hs]]
      exact (ih hco').cons _
    · have hcn : c.flagName = p.1 :=
        ((SaveState_eq_some hs).2.1).trans
          (hco p (List.mem_cons_self _ _)).symm
      rw [show captureAll (p :: rest) = c :: captureAll rest from by
        simp [captureAll, List.filterMap_cons, hs]]
      rw [List.map_cons, List.map_cons, hcn]
      exact (ih hco').cons₂ _

theorem captureAll_names_nodup (m : FlagMap) (hco : KeysCoherent m)
    (hnd : KeysNodup m) :
    ((captureAll m).map (fun c => c.flagName)).Nodup :=
  hnd.sublist (captureAll_names_sublist m hco)

theorem lookup_restoreCapsule (c : FlagStateCapsule) (m : FlagMap)
    (n : String) :
    FlagMap.lookup (restoreCapsule c m) n =
      (FlagMap.lookup m n).map (fun f =>
        if n = c.flagName then { f with cur := some c.savedValue } else f)
    := by
  induction m with
  | nil => rfl
  | cons p rest ih =>
    obtain ⟨k, g⟩ := p
    rw [show restoreCapsule c ((k, g) :: rest) =
        (if k = c.flagName then (k, { g with cur := some c.savedValue })
         else (k, g)) :: restoreCapsule c rest from by
      simp [restoreCapsule]]
    by_cases hc : k = c.flagName
    · rw [if_pos hc, lookup_cons, lookup_cons]
      by_cases hk : n = k
      · rw [if_pos hk, if_pos hk, Option.map_some', if_pos (hk.trans hc)]
      · rw [if_neg hk, if_neg hk, ih]
    · rw [if_neg hc, lookup_cons, lookup_cons]
      by_cases hk : n = k
      · rw [if_pos hk, if_pos hk, Option.map_some',
          if_neg (fun he => hc (hk ▸ he))]
      · rw [if_neg hk, if_neg hk, ih]

theorem lookup_restoreAll_not_mem (caps : List FlagStateCapsule)
    (s : FlagMap) (n : String) (h : ∀ c ∈ caps, c.flagName ≠ n) :
    FlagMap.lookup (caps.foldl (fun acc c => restoreCapsule c acc) s) n =
      FlagMap.lookup s n := by
  induction caps generalizing s with
  | nil => rfl
  | cons c rest ih =>
    rw [List.foldl_cons,
      ih (restoreCapsule c s) (fun c' hc' => h c' (List.mem_cons_of_mem _ hc')),
      lookup_restoreCapsule]
    have hn : n ≠ c.flagName :=
      fun he => h c (List.mem_cons_self _ _) he.symm
    simp [hn]

theorem lookup_restoreAll_mem (caps : List FlagStateCapsule) (s : FlagMap)
    (cap : FlagStateCapsule) (hmem : cap ∈ caps)
    (hnd : (caps.map (fun c => c.flagName)).Nodup) :
    FlagMap.lookup (caps.foldl (fun acc c => restoreCapsule c acc) s)
      cap.flagName =
      (FlagMap.lookup s cap.flagName).map (fun f =>
        { f with cur := some cap.savedValue }) := by
  induction caps generalizing s with
  | nil => cases hmem
  | cons c rest ih =>
    rw [List.foldl_cons]
    rw [List.map_cons, List.nodup_cons] at hnd
    rcases List.mem_cons.mp hmem with he | hm
    · subst he
      rw [lookup_restoreAll_not_mem rest (restoreCapsule cap s) cap.flagName
        (fun c' hc' heq => hnd.1 (heq ▸ List.mem_map_of_mem _ hc'))]
      rw [lookup_restoreCapsule]
      simp
    · rw [ih (restoreCapsule c s) hm hnd.2, lookup_restoreCapsule]
      have hne : cap.flagName ≠ c.flagName :=
        fun heq => hnd.1 (heq ▸ List.mem_map_of_mem _ hm)
      rcases FlagMap.lookup s cap.flagName with _ | f
      · rfl
      · simp [hne]

theorem restoreAll_round_trip (s₀ s₁ : FlagMap) (hco : KeysCoherent s₀)
    (hnd : KeysNodup s₀) (n : String) (f g : CommandLineFlag)
    (cap : FlagStateCapsule)
    (hf : FlagMap.lookup s₀ n = some f) (hc : f.SaveState = some cap)
    (hg : FlagMap.lookup s₁ n = some g) :
    FlagMap.lookup
        ((captureAll s₀).foldl (fun acc c => restoreCapsule c acc) s₁) n =
      some { g with cur := some cap.savedValue }
    ∧ f.cur = some cap.savedValue := by
  have hmem : (n, f) ∈ s₀ := lookup_some_mem hf
  have hn : n = f.name := hco (n, f) hmem
  obtain ⟨hret, hcapn, hcur⟩ := SaveState_eq_some hc
  have hcap : cap ∈ captureAll s₀ := mem_captureAll hmem hc
  have hnd' := captureAll_names_nodup s₀ hco hnd
  have hmain := lookup_restoreAll_mem (captureAll s₀) s₁ cap hcap hnd'
  rw [hcapn, ← hn] at hmain
  refine ⟨?_, hcur⟩
  rw [hmain, hg]
  rfl

/-- C3: a snapshot capture followed by a restore reproduces, in every live
descriptor that returned a state capsule at capture time, the value it had
at capture time, regardless of the mutations applied between capture and
restore; retired descriptors yield no capsule from `SaveState` and are
thereby excluded from both capture and restore. -/
theorem c3_snapshot_round_trip (s₀ s₁ : FlagMap) (hco : KeysCoherent s₀)
    (hnd : KeysNodup s₀) :
    (∀ n f cap g, FlagMap.lookup s₀ n = some f → f.SaveState = some cap →
        FlagMap.lookup s₁ n = some g →
        ∃ g', FlagMap.lookup
            (FlagSaverImpl.restoreToRegistry { backup := captureAll s₀ } s₁)
            n = some g' ∧ g'.cur = f.cur)
    ∧ (∀ f : CommandLineFlag, f.retired = true → f.SaveState = none) := by
  constructor
  · intro n f cap g hf hc hg
    obtain ⟨h1, h2⟩ := restoreAll_round_trip s₀ s₁ hco hnd n f g cap hf hc hg
    exact ⟨_, h1, by rw [h2]⟩
  · intro f hr
    simp [CommandLineFlag.SaveState, hr]

/-- Witness for C3: capture over a one-flag registry, mutate the value from
1 to 2, restore, and the flag's value is back to its capture-time value. -/
theorem c3_snapshot_round_trip_witness :
    ∃ g', FlagMap.lookup
        (FlagSaverImpl.restoreToRegistry
          { backup := captureAll [("verbose", flagA)] }
          [("verbose", flagB)]) "verbose" = some g'
      ∧ g'.cur = flagA.cur :=
  (c3_snapshot_round_trip [("verbose", flagA)] [("verbose", flagB)]
      (by decide) (by decide)).1 "verbose" flagA
    { flagName := "verbose", savedValue := 1 } flagB (by decide) (by decide)
    (by decide)

/-- C9: after `Ignore`, the destructor performs no restore at all — the
registry stays exactly as mutated; without `Ignore`, the destructor
restores every capsule captured at construction, bringing each
capsule-bearing descriptor back to its capture-time value. -/
theorem c9_discard_semantics (s₀ s₁ : FlagMap) (hco : KeysCoherent s₀)
    (hnd : KeysNodup s₀) :
    FlagSaver.destruct (FlagSaver.ignore (FlagSaver.construct s₀)) s₁ = s₁
    ∧ (∀ n f cap g, FlagMap.lookup s₀ n = some f → f.SaveState = some cap →
        FlagMap.lookup s₁ n = some g →
        ∃ g', FlagMap.lookup
            (FlagSaver.destruct (FlagSaver.construct s₀) s₁) n = some g'
          ∧ g'.cur = f.cur) := by
  refine ⟨rfl, ?_⟩
  intro n f cap g hf hc hg
  obtain ⟨h1, h2⟩ := restoreAll_round_trip s₀ s₁ hco hnd n f g cap hf hc hg
  exact ⟨_, h1, by rw [h2]⟩

/-- Witness for C9: a saver over a one-flag registry restores the mutated
value at destruction. -/
theorem c9_discard_semantics_witness :
    FlagSaver.destruct
        (FlagSaver.ignore (FlagSaver.construct [("verbose", flagA)]))
        [("verbose", flagB)] = [("verbose", flagB)]
    ∧ ∃ g', FlagMap.lookup
          (FlagSaver.destruct (FlagSaver.construct [("verbose", flagA)])
            [("verbose", flagB)]) "verbose" = some g'
        ∧ g'.cur = flagA.cur := by
  have h := c9_discard_semantics [("verbose", flagA)] [("verbose", flagB)]
    (by decide) (by decide)
  exact ⟨h.1, h.2 "verbose" flagA { flagName := "verbose", savedValue := 1 }
    flagB (by decide) (by decide) (by decide)⟩

end AbslFlags
